import Mathlib

/-!
Shallow embedding of the build-state subsystem of the tangram build server,
covering the children stream (`packages/server/src/build/children.rs`), the
build fetch and remote-fallback resolver (`packages/server/src/build/get.rs`),
the structured error trace printer (`packages/error/src/lib.rs`), and
dependency merging (`packages/client/src/dependency.rs`).

Identifiers are modelled as natural numbers, SQL tables as lists of rows,
machine integers as `Nat`/`Int` with explicit range checks where the code
checks them, and fallible operations as `Except String`.  Side-effecting
operations thread an explicit server state; an operation whose database
effects commit before a later failure returns the mutated state together
with the `Except` result, mirroring the fact that a committed SQL insert is
not rolled back by a later error in the same Rust function.
-/

namespace Tangram

/-- A build identifier (`tg::build::Id`), modelled as an opaque natural. -/
abbrev BuildId := Nat

/-- The build status enum `tg::build::Status`. -/
inductive Status where
  | created
  | queued
  | started
  | finished
deriving DecidableEq, Repr

/-- The retry policy enum `tg::build::Retry`. -/
inductive Retry where
  | canceled
  | failed
  | succeeded
deriving DecidableEq, Repr

/-- The outcome `tg::build::outcome::Data`: `Canceled | Failed(Error) | Succeeded(ValueData)`.
The failed error and succeeded value payloads are opaque strings here. -/
inductive Outcome where
  | canceled
  | failed (error : String)
  | succeeded (value : String)
deriving DecidableEq, Repr

/-- The seek origin `std::io::SeekFrom`, as used by `tg::build::children::Arg::position`. -/
inductive SeekFrom where
  | fromStart (n : Nat)
  | fromEnd (k : Int)
  | fromCurrent (k : Int)
deriving DecidableEq, Repr

/-- A chunk `tg::build::children::Chunk` with fields `position` and `items`. -/
structure Chunk where
  position : Nat
  items : List BuildId
deriving DecidableEq, Repr

/-! ## The children subsystem (`packages/server/src/build/children.rs`) -/

/-- One row of the `build_children` table: `(build, position, child)`. -/
structure ChildRow where
  build : BuildId
  position : Nat
  child : BuildId
deriving DecidableEq, Repr

/-- The server state visible to `children.rs`: the `builds` table (projected to
the columns the file reads: `id` and `status`), the `build_children` table, and
the messenger, modelled as the list of subjects published so far. -/
structure ServerState where
  builds : List (BuildId × Status)
  children : List ChildRow
  messages : List String
deriving DecidableEq, Repr

/-- The SQL predicate `build = ?1 and child = ?2` on a `build_children` row,
i.e. the `(build, child)` conflict target. -/
def edgePred (b c : BuildId) (r : ChildRow) : Bool :=
  r.build == b && r.child == c

/-- Whether the `(build, child)` unique constraint would fire for `(b, c)`. -/
def hasEdge (tbl : List ChildRow) (b c : BuildId) : Bool :=
  tbl.any (edgePred b c)

/-- Number of `(b, c)` rows in `build_children` (1 at most, by the schema). -/
def edgeCount (tbl : List ChildRow) (b c : BuildId) : Nat :=
  (tbl.filter (edgePred b c)).length

/-- The SQL `select coalesce(max(position) + 1, 0) from build_children where build = ?1`. -/
def nextPosition (tbl : List ChildRow) (b : BuildId) : Nat :=
  tbl.foldl (fun acc r => if r.build == b then max acc (r.position + 1) else acc) 0

/-- The insert of `try_add_build_child_local`:
`insert into build_children (build, position, child) values (?1, coalesce-max, ?2)
on conflict (build, child) do nothing;`. -/
def insertChild (tbl : List ChildRow) (b c : BuildId) : List ChildRow :=
  if hasEdge tbl b c then tbl
  else tbl ++ [⟨b, nextPosition tbl b, c⟩]

/-- The SQL `select count(*) from build_children where build = ?1`, as computed by
`try_get_build_children_local_current_position`. -/
def countChildren (tbl : List ChildRow) (b : BuildId) : Nat :=
  (tbl.filter (fun r => r.build == b)).length

/-- Whether the build exists in the local `builds` table
(`get_build_exists_local`). -/
def getBuildExistsLocal (st : ServerState) (b : BuildId) : Bool :=
  st.builds.any (fun r => r.1 == b)

/-- The `status` column of the build row, when the build is local. -/
def statusOfBuild (st : ServerState) (b : BuildId) : Option Status :=
  (st.builds.find? (fun r => r.1 == b)).map (·.2)

/-- The messenger subject `builds.{build_id}.children`. -/
def childrenSubject (b : BuildId) : String :=
  "builds." ++ toString (b : Nat) ++ ".children"

/-- The local insert `try_add_build_child_local`.  Returns `ok false` when the build is not
local.  Otherwise the row is inserted (a committed database effect, kept in
the returned state on every path) and the notification is published;
`publishOk` says whether the messenger publish succeeds, and a publish
failure is mapped to the error `"failed to publish"` and propagated with `?`
after the insert has committed. -/
def tryAddBuildChildLocal (publishOk : Bool) (st : ServerState) (b c : BuildId) :
    ServerState × Except String Bool :=
  if getBuildExistsLocal st b = false then
    (st, .ok false)
  else
    let st1 : ServerState := { st with children := insertChild st.children b c }
    if publishOk then
      ({ st1 with messages := st1.messages ++ [childrenSubject b] }, .ok true)
    else
      (st1, .error "failed to publish")

/-- The remote fallback `try_add_build_child_remote`: with no remote, `ok false`; otherwise the
child is pushed and the call is forwarded, either of which may fail; `remote`
models the combined outcome of those two remote calls. -/
def tryAddBuildChildRemote (remote : Option (Except String Unit)) :
    Except String Bool :=
  match remote with
  | none => .ok false
  | some (.error e) => .error e
  | some (.ok ()) => .ok true

/-- The public writer `add_build_child`: local first, then remote, else
`"failed to get the build"`.  The state is threaded so that committed local
effects survive a later error. -/
def addBuildChild (publishOk : Bool) (remote : Option (Except String Unit))
    (st : ServerState) (b c : BuildId) : ServerState × Except String Unit :=
  match tryAddBuildChildLocal publishOk st b c with
  | (st1, .error e) => (st1, .error e)
  | (st1, .ok true) => (st1, .ok ())
  | (st1, .ok false) =>
    match tryAddBuildChildRemote remote with
    | .error e => (st1, .error e)
    | .ok true => (st1, .ok ())
    | .ok false => (st1, .error "failed to get the build")

/-- Iterated adds: `k` repetitions of `add_build_child(b, c)` with a working messenger and no
remote, keeping only the server state. -/
def addChildIter (b c : BuildId) (k : Nat) (st : ServerState) : ServerState :=
  (fun s => (addBuildChild true none s b c).1)^[k] st

/-! ## Position resolution for the children stream -/

/-- The checked addition `i64::checked_add`: the sum when it fits in a signed 64-bit integer. -/
def checkedAddI64 (a b : Int) : Option Int :=
  if -(2 ^ 63) ≤ a + b ∧ a + b ≤ 2 ^ 63 - 1 then some (a + b) else none

/-- The conversion `i64::to_u64` (from `num::ToPrimitive`): `none` exactly on negatives. -/
def i64ToU64 (a : Int) : Option Nat :=
  if 0 ≤ a then some a.toNat else none

/-- The `arg.position` match of `try_get_build_children_local` (lines 76-91):
`Start(seek)` is used as-is; `End(seek)` and `Current(seek)` are
`checked_add`ed to the current children count (each failure is the error
`"invalid offset"`, first from `checked_add`, then from `to_u64`); an absent
position is the current count. -/
def resolvePosition (count : Nat) (position : Option SeekFrom) :
    Except String Nat :=
  match position with
  | some (.fromStart seek) => .ok seek
  | some (.fromEnd seek) | some (.fromCurrent seek) =>
    match checkedAddI64 (count : Int) seek with
    | none => .error "invalid offset"
    | some sum =>
      match i64ToU64 sum with
      | none => .error "invalid offset"
      | some n => .ok n
  | none => .ok count

/-! ## The inner pagination loop of the children stream -/

/-- The end test `try_get_build_children_local_end`: the SQL
`(select status = 'finished' from builds where id = ?1) and
(select ?2 >= count(*) from build_children where build = ?1)`.
The stream only runs for builds that exist locally, so the builds subquery
always finds a row. -/
def tryGetBuildChildrenLocalEnd (st : ServerState) (id : BuildId)
    (position : Nat) : Bool :=
  (statusOfBuild st id == some Status.finished)
    && (countChildren st.children id ≤ position)

/-- The pagination query `try_get_build_children_local_inner`: the SQL
`select child from build_children where build = ?1 order by position
limit ?2 offset ?3`, wrapped as a `Chunk` at the offset. -/
def tryGetBuildChildrenLocalInner (st : ServerState) (id : BuildId)
    (position length : Nat) : Chunk :=
  let rows := (st.children.filter (fun r => r.build == id)).mergeSort
    (fun r s => r.position ≤ s.position)
  { position := position
    items := ((rows.map (·.child)).drop position).take length }

/-- The `(position, read)` pair held in the stream's mutex, together with the
`end` flag of the inner unfold. -/
structure InnerState where
  position : Nat
  read : Nat
  ended : Bool
deriving DecidableEq, Repr

/-- The per-query size of the inner loop:
`match length { None => size, Some(length) => size.min(length - read) }`. -/
def innerSize (length : Option Nat) (size read : Nat) : Nat :=
  match length with
  | none => size
  | some length => size.min (length - read)

/-- One step of the inner pagination unfold of
`try_get_build_children_local` (lines 138-182): read a chunk at the current
position, advance `(position, read)` by the number of items read, and then:
a non-empty chunk is emitted and the loop continues; an empty chunk is
emitted as the terminator (with `end` set) exactly when
`try_get_build_children_local_end` holds at its position, and otherwise the
inner stream finishes without emitting. `none` means the unfold produced no
item. -/
def innerStep (st : ServerState) (id : BuildId) (length : Option Nat)
    (size : Nat) (s : InnerState) : Option (Chunk × InnerState) :=
  if s.ended then none
  else
    let sz := innerSize length size s.read
    let chunk := tryGetBuildChildrenLocalInner st id s.position sz
    let read := chunk.items.length
    let s1 : InnerState :=
      { position := s.position + read, read := s.read + read, ended := false }
    if chunk.items.isEmpty then
      if tryGetBuildChildrenLocalEnd st id chunk.position then
        some (chunk, { s1 with ended := true })
      else
        none
    else
      some (chunk, s1)

/-! ## The HTTP handler's shutdown cut (`handle_get_build_children_request`) -/

/-- The cut `stream.take_until(stop)` where `stop` resolves once the watched shutdown
flag is true: the trace pairs each chunk the underlying stream would yield
with the value of the watched flag when that element is polled; polling stops
at the first element whose flag is true. -/
def takeUntilStop : List (Bool × Chunk) → List Chunk
  | [] => []
  | (stop, c) :: rest => if stop then [] else c :: takeUntilStop rest

/-- The `application/json` body: the chunks are collected and their items
concatenated into a single JSON array. -/
def jsonBodyItems (chunks : List Chunk) : List BuildId :=
  (chunks.map (·.items)).flatten

/-- The `text/event-stream` body: one event per chunk, in order. -/
def sseBodyEvents (chunks : List Chunk) : List Chunk :=
  chunks

/-! ## Remote fallback for the children stream
(`try_get_build_children_remote`) -/

/-- The remote fallback `try_get_build_children_remote`: `self.remotes.first()` — with no remote
configured the result is `ok none`; otherwise only the first remote is
consulted: its error propagates (the `?` operator), its `None` is returned as
`ok none`, and its stream is returned.  A remote's answer is modelled as the
list of chunks its stream yields. -/
def tryGetBuildChildrenRemote
    (remotes : List (BuildId → Except String (Option (List Chunk))))
    (id : BuildId) : Except String (Option (List Chunk)) :=
  match remotes with
  | [] => .ok none
  | remote :: _ =>
    match remote id with
    | .error e => .error e
    | .ok none => .ok none
    | .ok (some stream) => .ok (some stream)

/-! ## Build fetch and the resolver (`packages/server/src/build/get.rs`) -/

/-- The output `tg::build::GetOutput`: the decoded columns of one `builds` row.
Timestamps are kept as their RFC 3339 strings; ids as naturals. -/
structure GetOutput where
  id : BuildId
  count : Option Nat
  host : String
  log : Option Nat
  outcome : Option Outcome
  retry : Retry
  status : Status
  target : Nat
  weight : Option Nat
  createdAt : String
  queuedAt : Option String
  startedAt : Option String
  finishedAt : Option String
deriving DecidableEq, Repr

/-- The snapshot `tg::build::PutArg`: the full snapshot passed to `put_build` /
`insert_build` — the `GetOutput` fields plus the children list. -/
structure PutArg where
  id : BuildId
  children : List BuildId
  count : Option Nat
  host : String
  log : Option Nat
  outcome : Option Outcome
  retry : Retry
  status : Status
  target : Nat
  weight : Option Nat
  createdAt : String
  queuedAt : Option String
  startedAt : Option String
  finishedAt : Option String
deriving DecidableEq, Repr

/-- A stored build: the `builds` row together with its `build_children`
edges, as inserted atomically by `put_build`. -/
structure StoredBuild where
  output : GetOutput
  children : List BuildId
deriving DecidableEq, Repr

/-- The server state visible to `get.rs`: the local `builds` table (with its
children edges). -/
structure GetServerState where
  builds : List StoredBuild
deriving DecidableEq, Repr

/-- The `builds` row rebuilt from a `PutArg` snapshot. -/
def PutArg.output (arg : PutArg) : GetOutput :=
  { id := arg.id, count := arg.count, host := arg.host, log := arg.log
    outcome := arg.outcome, retry := arg.retry, status := arg.status
    target := arg.target, weight := arg.weight, createdAt := arg.createdAt
    queuedAt := arg.queuedAt, startedAt := arg.startedAt
    finishedAt := arg.finishedAt }

/-- Modelled from the spec: `insert_build` (the store half of `put_build`,
§4.1) is not under `src/` — only its caller in `get.rs` is.  Per the spec it
upserts the build row keyed by `id`, inserts the children atomically with the
row, and fails with `Invalid` when the §3 status/outcome invariants are
violated (`outcome` present iff `status = Finished`, `finished_at` present
iff `status = Finished`). -/
def insertBuild (st : GetServerState) (arg : PutArg) :
    Except String GetServerState :=
  if arg.outcome.isSome = (arg.status = Status.finished)
      ∧ arg.finishedAt.isSome = (arg.status = Status.finished) then
    .ok { builds := st.builds.filter (fun r => r.output.id != arg.id)
            ++ [{ output := arg.output, children := arg.children }] }
  else
    .error "invalid"

/-- The local fetch `try_get_build_local` (via its SQLite/Postgres variants): look the id up
in the `builds` table and decode the row. -/
def tryGetBuildLocal (st : GetServerState) (id : BuildId) : Option GetOutput :=
  (st.builds.find? (fun r => r.output.id == id)).map (·.output)

/-- The argument `try_get_build_remote` builds for the children fetch:
`tg::build::children::GetArg { timeout: Some(Duration::ZERO),
..Default::default() }` — the timeout is zero and every other field is its
default (`None`). -/
structure ChildrenGetArg where
  position : Option SeekFrom
  length : Option Nat
  size : Option Nat
  timeout : Option Nat
deriving DecidableEq, Repr

/-- The literal arg of `get.rs` lines 302-305. -/
def remoteChildrenFetchArg : ChildrenGetArg :=
  { position := none, length := none, size := none, timeout := some 0 }

/-- The remote fallback `try_get_build_remote`: with no remote configured, `ok none`; otherwise
ask the remote (`remoteGet`, whose error propagates through `?`); if the
remote's build is `Finished`, collect its full children list (the
`get_build_children` call with `remoteChildrenFetchArg`; the build is not
local, so the resolver reads the children from the remote, modelled by
`remoteChildren`) and insert the snapshot locally with `insert_build`; a
build whose status is not `Finished` is returned without any local insertion. -/
def tryGetBuildRemote (st : GetServerState)
    (remoteGet : Option (BuildId → Except String (Option GetOutput)))
    (remoteChildren : ChildrenGetArg → BuildId → List BuildId)
    (id : BuildId) : Except String (GetServerState × Option GetOutput) :=
  match remoteGet with
  | none => .ok (st, none)
  | some remote =>
    match remote id with
    | .error e => .error e
    | .ok none => .ok (st, none)
    | .ok (some output) =>
      if output.status = Status.finished then
        let children := remoteChildren remoteChildrenFetchArg id
        let arg : PutArg :=
          { id := output.id, children := children, count := output.count
            host := output.host, log := output.log, outcome := output.outcome
            retry := output.retry, status := output.status
            target := output.target, weight := output.weight
            createdAt := output.createdAt, queuedAt := output.queuedAt
            startedAt := output.startedAt, finishedAt := output.finishedAt }
        match insertBuild st arg with
        | .error e => .error e
        | .ok st1 => .ok (st1, some output)
      else
        .ok (st, some output)

/-- The resolver `try_get_build`: local first, then the remote fallback. -/
def tryGetBuild (st : GetServerState)
    (remoteGet : Option (BuildId → Except String (Option GetOutput)))
    (remoteChildren : ChildrenGetArg → BuildId → List BuildId)
    (id : BuildId) : Except String (GetServerState × Option GetOutput) :=
  match tryGetBuildLocal st id with
  | some output => .ok (st, some output)
  | none => tryGetBuildRemote st remoteGet remoteChildren id

/-! ## The two local fetch variants (`try_get_build_sqlite`,
`try_get_build_postgres`)

Both run the same `select ... from builds where id = ?` statement and decode
the row identically; the table is therefore modelled as the list of decoded
rows and the row filter as `rowsFor`.  They differ in how they consume the
result set: the SQLite variant steps the row cursor and returns `None` when
no row comes back, while the Postgres variant calls
`tokio_postgres::Client::query_one`, which returns an error unless the
result set has exactly one row. -/

/-- The rows matching `where id = ?`. -/
def rowsFor (tbl : List GetOutput) (id : BuildId) : List GetOutput :=
  tbl.filter (fun r => r.id == id)

/-- The SQLite variant `try_get_build_sqlite`: `rows.next()` — no row means `ok none`. -/
def tryGetBuildSqlite (tbl : List GetOutput) (id : BuildId) :
    Except String (Option GetOutput) :=
  match rowsFor tbl id with
  | [] => .ok none
  | row :: _ => .ok (some row)

/-- The Postgres variant `try_get_build_postgres`: `connection.query_one(..)` errors unless the
result set has exactly one row, and the error is wrapped as
`"Failed to execute the statement."`; the function has no path returning
`ok none`. -/
def tryGetBuildPostgres (tbl : List GetOutput) (id : BuildId) :
    Except String (Option GetOutput) :=
  match rowsFor tbl id with
  | [row] => .ok (some row)
  | _ => .error "Failed to execute the statement."

/-! ## The error trace printer (`packages/error/src/lib.rs`) -/

/-- The error struct `tangram_error::Error`, restricted to the fields the trace order depends
on: the message and the chained source. -/
inductive Err where
  | mk (message : String) (source : Option Err)

/-- The chain walk shared by `Trace::eprint` and `Display for Trace`:
`let mut errors = vec![self]; while let Some(next) = errors.last().source
{ errors.push(next) }` — outermost error first, leaf last. -/
def Err.chain : Err → List Err
  | .mk message none => [.mk message none]
  | .mk message (some source) => .mk message (some source) :: source.chain

/-- The order in which `Display for Trace` prints the errors (lines 168-174):
the chain is reversed when `options.reverse` is set. -/
def displayOrder (reverse : Bool) (e : Err) : List Err :=
  let errors := e.chain
  if reverse then errors.reverse else errors

/-- The order in which `Trace::eprint` prints the errors (lines 89-95): the
chain is reversed when `options.reverse` is NOT set. -/
def eprintOrder (reverse : Bool) (e : Err) : List Err :=
  let errors := e.chain
  if !reverse then errors.reverse else errors

/-! ## Dependency merging (`packages/client/src/dependency.rs`) -/

/-- The struct `tangram_client::Dependency`.  The `directory::Id` and `Path` payloads are
opaque here. -/
structure Dependency where
  id : Option Nat
  name : Option String
  path : Option String
  version : Option String
deriving DecidableEq, Repr

/-- The merge `Dependency::merge`: each field of `other` overwrites the corresponding
field of `self` when it is `Some`. -/
def Dependency.merge (self other : Dependency) : Dependency :=
  let s1 := match other.id with
    | some id => { self with id := some id }
    | none => self
  let s2 := match other.name with
    | some name => { s1 with name := some name }
    | none => s1
  let s3 := match other.path with
    | some path => { s2 with path := some path }
    | none => s2
  match other.version with
  | some version => { s3 with version := some version }
  | none => s3

/-! ## Helper lemmas -/

lemma edgePred_self (tbl : List ChildRow) (b c : BuildId) :
    edgePred b c ⟨b, nextPosition tbl b, c⟩ = true := by
  simp [edgePred]

lemma insertChild_of_hasEdge {tbl : List ChildRow} {b c : BuildId}
    (h : hasEdge tbl b c = true) : insertChild tbl b c = tbl := by
  simp [insertChild, h]

lemma insertChild_of_not_hasEdge {tbl : List ChildRow} {b c : BuildId}
    (h : hasEdge tbl b c = false) :
    insertChild tbl b c = tbl ++ [⟨b, nextPosition tbl b, c⟩] := by
  simp [insertChild, h]

lemma hasEdge_insertChild (tbl : List ChildRow) (b c : BuildId) :
    hasEdge (insertChild tbl b c) b c = true := by
  by_cases h : hasEdge tbl b c = true
  · rwa [insertChild_of_hasEdge h]
  · have h' : hasEdge tbl b c = false := by simpa using h
    rw [insertChild_of_not_hasEdge h']
    unfold hasEdge
    rw [List.any_append]
    simp [edgePred]

lemma insertChild_idem (tbl : List ChildRow) (b c : BuildId) :
    insertChild (insertChild tbl b c) b c = insertChild tbl b c :=
  insertChild_of_hasEdge (hasEdge_insertChild tbl b c)

lemma edgeCount_eq_zero {tbl : List ChildRow} {b c : BuildId}
    (h : hasEdge tbl b c = false) : edgeCount tbl b c = 0 := by
  have hall : ∀ r ∈ tbl, ¬ edgePred b c r = true := by
    intro r hr
    have := (List.any_eq_false).mp h r hr
    simpa using this
  simp only [edgeCount, List.length_eq_zero]
  exact List.filter_eq_nil_iff.mpr hall

lemma edgeCount_pos {tbl : List ChildRow} {b c : BuildId}
    (h : hasEdge tbl b c = true) : 1 ≤ edgeCount tbl b c := by
  obtain ⟨r, hr, hp⟩ := List.any_eq_true.mp h
  have hmem : r ∈ tbl.filter (edgePred b c) := List.mem_filter.mpr ⟨hr, hp⟩
  have : tbl.filter (edgePred b c) ≠ [] := List.ne_nil_of_mem hmem
  have := List.length_pos.mpr this
  simpa [edgeCount] using this

lemma edgeCount_insertChild {tbl : List ChildRow} {b c : BuildId}
    (h : edgeCount tbl b c ≤ 1) : edgeCount (insertChild tbl b c) b c = 1 := by
  by_cases he : hasEdge tbl b c = true
  · rw [insertChild_of_hasEdge he]
    have := edgeCount_pos he
    omega
  · have he' : hasEdge tbl b c = false := by simpa using he
    have h0 := edgeCount_eq_zero he'
    rw [insertChild_of_not_hasEdge he']
    unfold edgeCount at h0 ⊢
    rw [List.filter_append, List.length_append, h0]
    have hrow : List.filter (edgePred b c) [⟨b, nextPosition tbl b, c⟩]
        = [⟨b, nextPosition tbl b, c⟩] := by
      simp [edgePred]
    rw [hrow]
    simp

lemma addBuildChild_builds (st : ServerState) (b c : BuildId) :
    (addBuildChild true none st b c).1.builds = st.builds := by
  by_cases hb : getBuildExistsLocal st b = true
  · simp [addBuildChild, tryAddBuildChildLocal, hb]
  · have hb' : getBuildExistsLocal st b = false := by simpa using hb
    simp [addBuildChild, tryAddBuildChildLocal, tryAddBuildChildRemote, hb']

lemma addBuildChild_local_children (st : ServerState) (b c : BuildId)
    (hb : getBuildExistsLocal st b = true) :
    (addBuildChild true none st b c).1.children = insertChild st.children b c := by
  simp [addBuildChild, tryAddBuildChildLocal, hb]

lemma addChildIter_builds (b c : BuildId) (k : Nat) (st : ServerState) :
    (addChildIter b c k st).builds = st.builds := by
  induction k with
  | zero => rfl
  | succ n ih =>
    rw [addChildIter, Function.iterate_succ_apply', ← addChildIter,
      addBuildChild_builds, ih]

lemma addChildIter_children (b c : BuildId) (k : Nat) (st : ServerState)
    (hb : getBuildExistsLocal st b = true) :
    (addChildIter b c k st).children
      = (fun tbl => insertChild tbl b c)^[k] st.children := by
  induction k with
  | zero => rfl
  | succ n ih =>
    have hb' : getBuildExistsLocal (addChildIter b c n st) b = true := by
      unfold getBuildExistsLocal
      rw [addChildIter_builds]
      exact hb
    rw [addChildIter, Function.iterate_succ_apply', ← addChildIter,
      addBuildChild_local_children _ _ _ hb', ih,
      Function.iterate_succ_apply']

lemma insertChild_iterate (tbl : List ChildRow) (b c : BuildId) (k : Nat)
    (hk : 1 ≤ k) :
    (fun t => insertChild t b c)^[k] tbl = insertChild tbl b c := by
  induction k with
  | zero => omega
  | succ n ih =>
    rcases Nat.eq_zero_or_pos n with hn | hn
    · subst hn
      simp
    · rw [Function.iterate_succ_apply', ih hn]
      exact insertChild_idem tbl b c

/-! ## Claims -/

/-- C10: `Dependency::merge` overwrites each of the fields `id`, `name`,
`path`, `version` of the receiver with the argument's field exactly when the
argument's field is `Some`, and keeps the receiver's original value when the
argument's field is `None`. -/
theorem dependency_merge_overwrites_some_fields (a b : Dependency) :
    (a.merge b).id = (if b.id.isSome then b.id else a.id) ∧
    (a.merge b).name = (if b.name.isSome then b.name else a.name) ∧
    (a.merge b).path = (if b.path.isSome then b.path else a.path) ∧
    (a.merge b).version = (if b.version.isSome then b.version else a.version) := by
  cases hid : b.id <;> cases hname : b.name <;> cases hpath : b.path <;>
    cases hversion : b.version <;>
    simp [Dependency.merge, hid, hname, hpath, hversion]

/-- C3: on an id with no row in the `builds` table, the SQLite variant of the
local build fetch returns `None`, but the Postgres variant — which consumes
its result set with `query_one`, erroring unless exactly one row comes
back — returns an error and can never return `None`; the two back-ends are
not equivalent on a miss. -/
theorem tryGetBuild_sqlite_postgres_divergence :
    tryGetBuildSqlite [] 0 = .ok none ∧
    tryGetBuildPostgres [] 0 = .error "Failed to execute the statement." :=
  ⟨rfl, rfl⟩

/-- C8: on an error chain `"outer" -> "inner"` with default options,
`Display for Trace` prints the outermost error first while `Trace::eprint`
prints the leaf first (as the spec states), so the two printers disagree on
the order; `Display` only becomes leaf-first when `reverse` is set. -/
theorem trace_order_divergence :
    displayOrder false (Err.mk "outer" (some (Err.mk "inner" none)))
      = [Err.mk "outer" (some (Err.mk "inner" none)), Err.mk "inner" none] ∧
    eprintOrder false (Err.mk "outer" (some (Err.mk "inner" none)))
      = [Err.mk "inner" none, Err.mk "outer" (some (Err.mk "inner" none))] ∧
    displayOrder false (Err.mk "outer" (some (Err.mk "inner" none)))
      ≠ eprintOrder false (Err.mk "outer" (some (Err.mk "inner" none))) ∧
    displayOrder true (Err.mk "outer" (some (Err.mk "inner" none)))
      = [Err.mk "inner" none, Err.mk "outer" (some (Err.mk "inner" none))] := by
  refine ⟨rfl, rfl, ?_, rfl⟩
  intro h
  rw [show displayOrder false (Err.mk "outer" (some (Err.mk "inner" none)))
      = [Err.mk "outer" (some (Err.mk "inner" none)), Err.mk "inner" none] from rfl,
    show eprintOrder false (Err.mk "outer" (some (Err.mk "inner" none)))
      = [Err.mk "inner" none, Err.mk "outer" (some (Err.mk "inner" none))] from rfl]
      at h
  have h1 : Err.mk "outer" (some (Err.mk "inner" none)) = Err.mk "inner" none := by
    injection h
  injection h1 with hmsg hsrc
  exact absurd hmsg (by decide)

/-- C4, counterexample: with two configured remotes whose first fails, the
children fallback propagates the first remote's error instead of treating it
as "not found here" and returning the second remote's stream. -/
theorem remoteFallback_counterexample :
    tryGetBuildChildrenRemote
      [fun _ => .error "remote failed",
       fun _ => .ok (some [{ position := 0, items := [1] }])] 0
      = .error "remote failed" ∧
    tryGetBuildChildrenRemote
      [fun _ => .error "remote failed",
       fun _ => .ok (some [{ position := 0, items := [1] }])] 0
      ≠ .ok (some [{ position := 0, items := [1] }]) := by
  refine ⟨rfl, ?_⟩
  intro h
  rw [show tryGetBuildChildrenRemote
      [fun _ => .error "remote failed",
       fun _ => .ok (some [({ position := 0, items := [1] } : Chunk)])] 0
      = .error "remote failed" from rfl] at h
  exact Except.noConfusion h

/-- C4, amended: on a local miss only the first configured remote is
consulted (for `try_get_build` there is at most one remote at all); an error
from that remote propagates to the caller instead of being treated as
not-found; the result is `None` exactly when no remote is configured or the
consulted remote returns no value. -/
theorem remoteFallback_first_only
    (remotes : List (BuildId → Except String (Option (List Chunk))))
    (id : BuildId) (st : GetServerState)
    (remoteGet : BuildId → Except String (Option GetOutput))
    (remoteChildren : ChildrenGetArg → BuildId → List BuildId) :
    (remotes = [] → tryGetBuildChildrenRemote remotes id = .ok none) ∧
    (∀ r rest, remotes = r :: rest →
      tryGetBuildChildrenRemote remotes id = tryGetBuildChildrenRemote [r] id) ∧
    (∀ r rest e, remotes = r :: rest → r id = .error e →
      tryGetBuildChildrenRemote remotes id = .error e) ∧
    (∀ e, remoteGet id = .error e →
      tryGetBuildRemote st (some remoteGet) remoteChildren id = .error e) ∧
    tryGetBuildRemote st none remoteChildren id = .ok (st, none) := by
  refine ⟨?_, ?_, ?_, ?_, rfl⟩
  · rintro rfl
    rfl
  · rintro r rest rfl
    simp [tryGetBuildChildrenRemote]
  · rintro r rest e rfl he
    simp [tryGetBuildChildrenRemote, he]
  · intro e he
    simp [tryGetBuildRemote, he]

/-- C4, witness for the amended claim: with no remotes the children fallback
returns `None`, and a failing single remote's error propagates. -/
theorem remoteFallback_first_only_witness :
    tryGetBuildChildrenRemote [] 0 = .ok none ∧
    tryGetBuildRemote { builds := [] }
      (some fun _ => .error "boom") (fun _ _ => []) 0 = .error "boom" := by
  refine ⟨?_, ?_⟩
  · exact (remoteFallback_first_only [] 0 { builds := [] }
      (fun _ => .error "boom") (fun _ _ => [])).1 rfl
  · exact (remoteFallback_first_only [] 0 { builds := [] }
      (fun _ => .error "boom") (fun _ _ => [])).2.2.2.1 "boom" rfl

/-- C6: resolving a starting position: `FromStart(n)` is used as-is and an
absent position defaults to the current children count; `FromEnd(k)` and
`FromCurrent(k)` behave identically, adding the signed offset `k` to the
current count, and fail with the `invalid offset` error exactly when the
signed 64-bit addition overflows or the resulting value is negative;
otherwise the sum is the position.  `count` and `k` carry their machine
ranges (`count` is an `i64`-converted row count, `k` an `i64`). -/
theorem resolvePosition_seek_arithmetic (count : Nat) (k : Int) (n : Nat)
    (hcount : (count : Int) ≤ 2 ^ 63 - 1)
    (hk1 : -(2 ^ 63) ≤ k) (hk2 : k ≤ 2 ^ 63 - 1) :
    resolvePosition count (some (.fromStart n)) = .ok n ∧
    resolvePosition count none = .ok count ∧
    resolvePosition count (some (.fromEnd k))
      = resolvePosition count (some (.fromCurrent k)) ∧
    (((count : Int) + k < 0 ∨ 2 ^ 63 - 1 < (count : Int) + k) →
      resolvePosition count (some (.fromEnd k)) = .error "invalid offset") ∧
    (0 ≤ (count : Int) + k → (count : Int) + k ≤ 2 ^ 63 - 1 →
      resolvePosition count (some (.fromEnd k))
        = .ok ((count : Int) + k).toNat) := by
  have hlow : -(2 ^ 63) ≤ (count : Int) + k := by omega
  refine ⟨rfl, rfl, rfl, ?_, ?_⟩
  · intro hbad
    rcases hbad with hneg | hover
    · have hc : checkedAddI64 (count : Int) k = some ((count : Int) + k) := by
        unfold checkedAddI64
        rw [if_pos ⟨hlow, by omega⟩]
      have hu : i64ToU64 ((count : Int) + k) = none := by
        unfold i64ToU64
        rw [if_neg (by omega)]
      simp only [resolvePosition, hc, hu]
    · have hc : checkedAddI64 (count : Int) k = none := by
        unfold checkedAddI64
        rw [if_neg (by omega)]
      simp only [resolvePosition, hc]
  · intro h0 hmax
    have hc : checkedAddI64 (count : Int) k = some ((count : Int) + k) := by
      unfold checkedAddI64
      rw [if_pos ⟨hlow, hmax⟩]
    have hu : i64ToU64 ((count : Int) + k) = some ((count : Int) + k).toNat := by
      unfold i64ToU64
      rw [if_pos h0]
    simp only [resolvePosition, hc, hu]

/-- C6, witness: with 5 children present, `FromStart(7)` seeks to 7, an
absent position seeks to 5, and `FromEnd(-2)` seeks to 3. -/
theorem resolvePosition_seek_arithmetic_witness :
    resolvePosition 5 (some (.fromStart 7)) = .ok 7 ∧
    resolvePosition 5 none = .ok 5 ∧
    resolvePosition 5 (some (.fromEnd (-2))) = .ok 3 := by
  obtain ⟨h1, h2, -, -, h5⟩ :=
    resolvePosition_seek_arithmetic 5 (-2) 7 (by norm_num) (by norm_num)
      (by norm_num)
  have h3 := h5 (by norm_num) (by norm_num)
  rw [show (((5 : Nat) : Int) + (-2)).toNat = 3 by decide] at h3
  exact ⟨h1, h2, h3⟩

/-- C5: when the inner pagination query of the children tailing stream
returns zero items, the step emits a stream terminator (the empty chunk at
the current position, with the `end` flag set) exactly when the build's
status is `Finished` and the reader's position is at or past the current
children count; when either condition fails, it emits nothing (`none`), so
the outer loop waits for the next event. -/
theorem childrenStream_empty_terminator (st : ServerState) (id : BuildId)
    (length : Option Nat) (size : Nat) (s : InnerState)
    (hrun : s.ended = false)
    (hempty : (tryGetBuildChildrenLocalInner st id s.position
        (innerSize length size s.read)).items = []) :
    (innerStep st id length size s ≠ none ↔
      statusOfBuild st id = some Status.finished
        ∧ countChildren st.children id ≤ s.position) ∧
    (statusOfBuild st id = some Status.finished
        ∧ countChildren st.children id ≤ s.position →
      innerStep st id length size s
        = some ({ position := s.position, items := [] },
            { position := s.position, read := s.read, ended := true })) ∧
    (¬ (statusOfBuild st id = some Status.finished
        ∧ countChildren st.children id ≤ s.position) →
      innerStep st id length size s = none) := by
  have hch : tryGetBuildChildrenLocalInner st id s.position
      (innerSize length size s.read)
      = { position := s.position, items := [] } := by
    have heta : tryGetBuildChildrenLocalInner st id s.position
        (innerSize length size s.read)
        = { position := (tryGetBuildChildrenLocalInner st id s.position
              (innerSize length size s.read)).position,
            items := (tryGetBuildChildrenLocalInner st id s.position
              (innerSize length size s.read)).items } := rfl
    have hpos : (tryGetBuildChildrenLocalInner st id s.position
        (innerSize length size s.read)).position = s.position := rfl
    rw [heta, hempty, hpos]
  have hstep : innerStep st id length size s
      = if tryGetBuildChildrenLocalEnd st id s.position
        then some ({ position := s.position, items := [] },
          { position := s.position, read := s.read, ended := true })
        else none := by
    simp [innerStep, hrun, hch]
  have hcond : tryGetBuildChildrenLocalEnd st id s.position = true ↔
      (statusOfBuild st id = some Status.finished
        ∧ countChildren st.children id ≤ s.position) := by
    simp [tryGetBuildChildrenLocalEnd]
  by_cases hc : statusOfBuild st id = some Status.finished
      ∧ countChildren st.children id ≤ s.position
  · have hb : tryGetBuildChildrenLocalEnd st id s.position = true := hcond.mpr hc
    rw [hstep, if_pos hb]
    exact ⟨by simp [hc], fun _ => rfl, fun hn => absurd hc hn⟩
  · have hb : ¬ tryGetBuildChildrenLocalEnd st id s.position = true :=
      fun h => absurd (hcond.mp h) hc
    rw [hstep, if_neg hb]
    exact ⟨by simp [hc], fun h => absurd h hc, fun _ => rfl⟩

/-- C5, witness: on a finished build with no children and a reader at
position 0, the empty inner query emits the terminator chunk. -/
theorem childrenStream_empty_terminator_witness :
    innerStep { builds := [(0, Status.finished)], children := [], messages := [] }
        0 none 10 { position := 0, read := 0, ended := false }
      = some ({ position := 0, items := [] },
          { position := 0, read := 0, ended := true }) :=
  (childrenStream_empty_terminator
      { builds := [(0, Status.finished)], children := [], messages := [] }
      0 none 10 { position := 0, read := 0, ended := false }
      rfl (by simp [tryGetBuildChildrenLocalInner])).2.1 (by decide)

/-- The cut `stream.take_until(stop)` never emits past a poll at which the shutdown
flag is observed true: the emitted chunks are those of the truncated trace,
and there are at most `i` of them when the flag is true at poll `i`. -/
lemma takeUntilStop_stop_of_getElem (polls : List (Bool × Chunk)) (i : Nat)
    (hi : i < polls.length) (hstop : (polls[i]).1 = true) :
    takeUntilStop polls = takeUntilStop (polls.take i) ∧
    (takeUntilStop polls).length ≤ i := by
  induction polls generalizing i with
  | nil => simp at hi
  | cons hd tl ih =>
    obtain ⟨stop, c⟩ := hd
    cases i with
    | zero =>
      simp only [List.getElem_cons_zero] at hstop
      simp [takeUntilStop, hstop]
    | succ j =>
      have hj : j < tl.length := by simpa using hi
      have hstop' : (tl[j]).1 = true := by
        simpa [List.getElem_cons_succ] using hstop
      cases hs : stop with
      | true => simp [takeUntilStop, hs]
      | false =>
        obtain ⟨ih1, ih2⟩ := ih j hj hstop'
        refine ⟨?_, ?_⟩
        · simp [takeUntilStop, ih1]
        · simp [takeUntilStop]
          omega

/-- C9: every chunk the children HTTP handler emits was polled before the
watched shutdown flag was observed true: once the flag is true at poll `i`,
the handler's stream equals the stream of the first `i` polls, so neither
the JSON-collecting body nor the event-stream body contains anything from
later polls. -/
theorem childrenHandler_stops_on_shutdown (polls : List (Bool × Chunk))
    (i : Nat) (hi : i < polls.length) (hstop : (polls[i]).1 = true) :
    takeUntilStop polls = takeUntilStop (polls.take i) ∧
    (takeUntilStop polls).length ≤ i ∧
    jsonBodyItems (takeUntilStop polls)
      = jsonBodyItems (takeUntilStop (polls.take i)) ∧
    sseBodyEvents (takeUntilStop polls)
      = sseBodyEvents (takeUntilStop (polls.take i)) := by
  obtain ⟨h1, h2⟩ := takeUntilStop_stop_of_getElem polls i hi hstop
  exact ⟨h1, h2, by rw [h1], by rw [h1]⟩

/-- C9, witness: a two-poll trace whose second poll sees the shutdown flag
true emits only the first chunk. -/
theorem childrenHandler_stops_on_shutdown_witness :
    takeUntilStop [(false, { position := 0, items := [1] }),
        (true, { position := 1, items := [2] })]
      = takeUntilStop ([(false, { position := 0, items := [1] }),
          (true, { position := 1, items := [2] })].take 1) ∧
    (takeUntilStop [(false, { position := 0, items := [1] }),
        (true, { position := 1, items := [2] })]).length ≤ 1 ∧
    jsonBodyItems (takeUntilStop [(false, { position := 0, items := [1] }),
        (true, { position := 1, items := [2] })])
      = jsonBodyItems (takeUntilStop ([(false, { position := 0, items := [1] }),
          (true, { position := 1, items := [2] })].take 1)) ∧
    sseBodyEvents (takeUntilStop [(false, { position := 0, items := [1] }),
        (true, { position := 1, items := [2] })])
      = sseBodyEvents (takeUntilStop ([(false, { position := 0, items := [1] }),
          (true, { position := 1, items := [2] })].take 1)) :=
  childrenHandler_stops_on_shutdown
    [(false, { position := 0, items := [1] }),
     (true, { position := 1, items := [2] })] 1 (by decide) (by decide)

/-- C7, counterexample: on a build that exists locally, when the database
insert succeeds but the messenger publish fails, the caller of
`add_build_child` does NOT receive a success result: the publish error is
propagated, even though the inserted edge stays committed in
`build_children`. -/
theorem publishFailure_counterexample :
    (addBuildChild false none
        { builds := [(0, Status.started)], children := [], messages := [] }
        0 1).2 = .error "failed to publish" ∧
    (addBuildChild false none
        { builds := [(0, Status.started)], children := [], messages := [] }
        0 1).2 ≠ .ok () ∧
    (addBuildChild false none
        { builds := [(0, Status.started)], children := [], messages := [] }
        0 1).1.children = [{ build := 0, position := 0, child := 1 }] := by
  refine ⟨rfl, ?_, rfl⟩
  intro h
  rw [show (addBuildChild false none
      { builds := [(0, Status.started)], children := [], messages := [] }
      0 1).2 = .error "failed to publish" from rfl] at h
  exact Except.noConfusion h

/-- C7, amended: when the database insert of `try_add_build_child_local`
commits and the subsequent publish on `builds.{build}.children` fails, the
committed insert is never rolled back — the new edge stays in
`build_children` and the `builds` table is untouched — but the failure is
not silent: `add_build_child` returns the publish error to its caller
instead of a success result. -/
theorem publishFailure_commits_but_errors (st : ServerState) (b c : BuildId)
    (remote : Option (Except String Unit))
    (hb : getBuildExistsLocal st b = true) :
    (addBuildChild false remote st b c).1.children
      = insertChild st.children b c ∧
    (addBuildChild false remote st b c).1.builds = st.builds ∧
    (addBuildChild false remote st b c).2 = .error "failed to publish" := by
  simp [addBuildChild, tryAddBuildChildLocal, hb]

/-- C7, witness for the amended claim. -/
theorem publishFailure_commits_but_errors_witness :
    (addBuildChild false none
        { builds := [(0, Status.started)], children := [], messages := [] }
        0 2).1.children = insertChild [] 0 2 ∧
    (addBuildChild false none
        { builds := [(0, Status.started)], children := [], messages := [] }
        0 2).1.builds = [(0, Status.started)] ∧
    (addBuildChild false none
        { builds := [(0, Status.started)], children := [], messages := [] }
        0 2).2 = .error "failed to publish" :=
  publishFailure_commits_but_errors
    { builds := [(0, Status.started)], children := [], messages := [] }
    0 2 none (by decide)

/-- C1: `add_build_child(b, c)` is idempotent per `(build, child)` pair on a
locally known build: starting from a `build_children` table satisfying the
schema's `(build, child)` uniqueness, `k ≥ 1` calls leave exactly one
`(b, c)` edge, and the `(k+1)`-st call leaves the `build_children` table
exactly as the `k`-th left it. -/
theorem addBuildChild_idempotent (st : ServerState) (b c : BuildId) (k : Nat)
    (hb : getBuildExistsLocal st b = true)
    (hinv : edgeCount st.children b c ≤ 1) (hk : 1 ≤ k) :
    edgeCount (addChildIter b c k st).children b c = 1 ∧
    (addChildIter b c (k + 1) st).children
      = (addChildIter b c k st).children := by
  rw [addChildIter_children b c k st hb, addChildIter_children b c (k + 1) st hb,
    insertChild_iterate _ _ _ _ hk, insertChild_iterate _ _ _ _ (by omega)]
  exact ⟨edgeCount_insertChild hinv, rfl⟩

/-- C1, witness: two then three adds of the same child to a fresh build give
one edge and identical tables. -/
theorem addBuildChild_idempotent_witness :
    edgeCount (addChildIter 0 1 2
        { builds := [(0, Status.started)], children := [],
          messages := [] }).children 0 1 = 1 ∧
    (addChildIter 0 1 3
        { builds := [(0, Status.started)], children := [],
          messages := [] }).children
      = (addChildIter 0 1 2
        { builds := [(0, Status.started)], children := [],
          messages := [] }).children :=
  addBuildChild_idempotent
    { builds := [(0, Status.started)], children := [], messages := [] }
    0 1 2 (by decide) (by decide) (by decide)

/-- The local state after `put_build` upserts the snapshot `row`: the old
row for that id (if any) is replaced and the children are stored with it. -/
def upsertState (st : GetServerState) (row : StoredBuild) : GetServerState :=
  { builds := st.builds.filter (fun r => r.output.id != row.output.id) ++ [row] }

/-- After the upsert of `put_build`, a local fetch of the upserted id finds
exactly the upserted row. -/
lemma tryGetBuildLocal_upsert (st : GetServerState) (row : StoredBuild) :
    tryGetBuildLocal (upsertState st row) row.output.id = some row.output := by
  unfold tryGetBuildLocal upsertState
  rw [List.find?_append]
  have hfil : (st.builds.filter fun r => r.output.id != row.output.id).find?
      (fun r => r.output.id == row.output.id) = none := by
    rw [List.find?_eq_none]
    intro r hr
    have hne := (List.mem_filter.mp hr).2
    simp only [bne_iff_ne, ne_eq] at hne
    simp [hne]
  rw [hfil]
  simp

/-- C2: when the local fetch misses and the remote returns a build whose
status is `Finished`, the build is materialized locally: its full children
list is fetched with the zero timeout argument and the snapshot is upserted
with `put_build`, so a subsequent read of the same id is served locally —
`try_get_build` returns the same build and the same state for ANY remote
configuration, i.e. without contacting the remote.  When the remote build's
status is not `Finished`, the local state is unchanged.  (The remote's build
carries the requested id and, being finished, satisfies the outcome and
finished-at invariants.) -/
theorem tryGetBuildRemote_materializes_finished (st : GetServerState)
    (remote : BuildId → Except String (Option GetOutput))
    (remoteChildren : ChildrenGetArg → BuildId → List BuildId)
    (id : BuildId) (output : GetOutput)
    (hremote : remote id = .ok (some output)) (hid : output.id = id) :
    remoteChildrenFetchArg.timeout = some 0 ∧
    (output.status = Status.finished → output.outcome.isSome = true →
      output.finishedAt.isSome = true →
      ∃ st1,
        tryGetBuildRemote st (some remote) remoteChildren id
          = .ok (st1, some output) ∧
        tryGetBuildLocal st1 id = some output ∧
        ∀ remoteGet2 remoteChildren2,
          tryGetBuild st1 remoteGet2 remoteChildren2 id
            = .ok (st1, some output)) ∧
    (output.status ≠ Status.finished →
      tryGetBuildRemote st (some remote) remoteChildren id
        = .ok (st, some output)) := by
  refine ⟨rfl, ?_, ?_⟩
  · intro hfin houtc hfinat
    have hins : insertBuild st
        { id := output.id
          children := remoteChildren remoteChildrenFetchArg id
          count := output.count, host := output.host, log := output.log
          outcome := output.outcome, retry := output.retry
          status := output.status, target := output.target
          weight := output.weight, createdAt := output.createdAt
          queuedAt := output.queuedAt, startedAt := output.startedAt
          finishedAt := output.finishedAt }
        = .ok (upsertState st
            { output := output
              children := remoteChildren remoteChildrenFetchArg id }) := by
      unfold insertBuild
      rw [if_pos]
      · rfl
      · exact ⟨by simp [houtc, hfin], by simp [hfinat, hfin]⟩
    have hlocal : tryGetBuildLocal
        (upsertState st
          { output := output
            children := remoteChildren remoteChildrenFetchArg id })
        id = some output := by
      have h0 := tryGetBuildLocal_upsert st
        { output := output
          children := remoteChildren remoteChildrenFetchArg id }
      rw [show (StoredBuild.mk output
          (remoteChildren remoteChildrenFetchArg id)).output.id = id
        from hid] at h0
      exact h0
    refine ⟨upsertState st
        { output := output
          children := remoteChildren remoteChildrenFetchArg id },
      ?_, hlocal, ?_⟩
    · simp only [tryGetBuildRemote, hremote]
      rw [if_pos hfin, hins]
    · intro remoteGet2 remoteChildren2
      unfold tryGetBuild
      rw [hlocal]
  · intro hne
    simp only [tryGetBuildRemote, hremote]
    rw [if_neg hne]

/-- The concrete finished remote build used by the C2 witness. -/
def c2Out : GetOutput :=
  { id := 0, count := none, host := "x86_64-linux", log := none
    outcome := some Outcome.canceled, retry := Retry.canceled
    status := Status.finished, target := 3, weight := none
    createdAt := "2024-01-01T00:00:00Z", queuedAt := none, startedAt := none
    finishedAt := some "2024-01-01T00:00:01Z" }

/-- C2, witness: a finished remote build is materialized into the empty
local store and then served locally. -/
theorem tryGetBuildRemote_materializes_finished_witness :
    ∃ st1,
      tryGetBuildRemote { builds := [] } (some fun _ => .ok (some c2Out))
          (fun _ _ => [1]) 0 = .ok (st1, some c2Out) ∧
      tryGetBuildLocal st1 0 = some c2Out ∧
      ∀ remoteGet2 remoteChildren2,
        tryGetBuild st1 remoteGet2 remoteChildren2 0
          = .ok (st1, some c2Out) :=
  (tryGetBuildRemote_materializes_finished { builds := [] }
      (fun _ => .ok (some c2Out)) (fun _ _ => [1]) 0 c2Out rfl rfl).2.1
    rfl rfl rfl

end Tangram
